import Mathlib

/-!
Verification of `notebooks/utils/helper.py`: a small module of console
printing helpers (`print_section`, `print_dict`, `print_table`,
`print_results`, `print_rich_table`).

The embedding models a Python value by the inductive `Value`, and models
each helper as a function returning the list of printed lines (one list
element per emitted line; a leading `"\n"` inside a `print` call is a blank
line of its own).  `print_table` may fail in Python (a non-mapping row has
no `.values()`), so it and the dispatcher return `Option (List String)`.
The external renderers (`tabulate`, rich's `Table`/`Console`) are not part
of the module; `tabulate` is modelled abstractly as a renderer taking the
exact rows and headers the module passes, and the rich table is modelled by
the `RichTable` structure the module assembles.
-/

/-- A Python value, restricted to the shapes the helpers handle:
`None`, strings, integers, lists, and string-keyed dicts (an insertion
ordered association list). -/
inductive Value where
  | none : Value
  | str : String → Value
  | int : Int → Value
  | list : List Value → Value
  | dict : List (String × Value) → Value

mutual

/-- Python `repr` of a value (as far as the helpers can observe it). -/
def pyRepr : Value → String
  | .none => "None"
  | .str s => "'" ++ s ++ "'"
  | .int n => toString n
  | .list xs => "[" ++ String.intercalate ", " (pyReprList xs) ++ "]"
  | .dict d =>
      "\x7b" ++ String.intercalate ", " (pyReprEntries d) ++ "\x7d"

/-- `repr` of each element of a Python list. -/
def pyReprList : List Value → List String
  | [] => []
  | v :: vs => pyRepr v :: pyReprList vs

/-- `repr` of each `key: value` entry of a Python dict. -/
def pyReprEntries : List (String × Value) → List String
  | [] => []
  | (k, v) :: rest => ("'" ++ k ++ "': " ++ pyRepr v) :: pyReprEntries rest

end

/-- Python `str` of a value: a string prints as itself, anything else as its
`repr`. -/
def pyStr : Value → String
  | .str s => s
  | v => pyRepr v

/-- Python truthiness of a value (`if content:`). -/
def truthy : Value → Bool
  | .none => false
  | .str s => !s.isEmpty
  | .int n => n != 0
  | .list xs => !xs.isEmpty
  | .dict d => !d.isEmpty

/-- `"=" * width`: the separator line of `print_section`. -/
def sepLine (width : Nat) : String :=
  String.mk (List.replicate width '=')

/-- The lines the `if content:` block of `print_section` emits:
falsy content is skipped; a list is printed one element per line via
`print("sss", item)`; any other truthy content is printed via
`print(content)`. -/
def contentLines : Option Value → List String
  | Option.none => []
  | Option.some v =>
    if truthy v then
      match v with
      | .list items => items.map (fun item => "sss " ++ pyStr item)
      | _ => [pyStr v]
    else []

/-- `print_section(title, content=None, width=50)`: a blank line, a
separator line, the title line (preceded by one space), another separator
line, then the content block. -/
def print_section (title : String) (content : Option Value) (width : Nat) :
    List String :=
  ["", sepLine width, " " ++ title, sepLine width] ++ contentLines content

/-- The header block shared by `print_dict` and `print_table`:
`print_section(title)` when a title is given, else a single blank line
(`print()`). -/
def headerBlock : Option String → List String
  | Option.some t => print_section t Option.none 50
  | Option.none => [""]

/-- Python `f"{key:.<{key_width}}"`: the key left justified and padded with
`'.'` to `key_width` characters. -/
def padDot (s : String) (w : Nat) : String :=
  s ++ String.mk (List.replicate (w - s.length) '.')

/-- The line `print_dict` emits for one entry:
`f"{key:.<{key_width}} {value}"`. -/
def dictLine (w : Nat) (p : String × Value) : String :=
  padDot p.1 w ++ " " ++ pyStr p.2

/-- `print_dict(data, title=None, key_width=20)`: the header block, then
one line per entry in insertion order. -/
def print_dict (data : List (String × Value)) (title : Option String)
    (key_width : Nat) : List String :=
  headerBlock title ++ data.map (dictLine key_width)

/-- Modelled from the spec: the external plain-text tabular renderer
(the `tabulate` library, not part of the repository).  It prints a header
row made of the given column headers, then one line per body row with the
cells stringified, tagged with the table-style token. -/
def tabulate (rows : List (List Value)) (headers : List String)
    (tablefmt : String) : List String :=
  ("[" ++ tablefmt ++ "] " ++ String.intercalate " | " headers) ::
    rows.map (fun r => String.intercalate " | " (r.map pyStr))

/-- `list(d.values())` for a Python value expected to be a dict: fails on a
non-dict (Python raises `AttributeError`). -/
def valuesOf : Value → Option (List Value)
  | .dict d => Option.some (d.map Prod.snd)
  | _ => Option.none

/-- `d.keys()` for a Python value expected to be a dict. -/
def keysOf : Value → Option (List String)
  | .dict d => Option.some (d.map Prod.fst)
  | _ => Option.none

/-- `[list(d.values()) for d in data]`: each row's values, failing on the
first non-mapping row as the Python comprehension does. -/
def valuesRows : List Value → Option (List (List Value))
  | [] => Option.some []
  | v :: vs => do
      let r ← valuesOf v
      let rs ← valuesRows vs
      Option.some (r :: rs)

/-- `print_table(data, title=None, table_format="grid")`: the header block,
then (for truthy data) the tabulated rows with headers taken from the first
row's keys and each row's values in that row's own order.  Fails when a row
is not a mapping, as Python does. -/
def print_table (data : List Value) (title : Option String)
    (table_format : String) : Option (List String) :=
  match data with
  | [] => Option.some (headerBlock title)
  | first :: rest => do
      let headers ← keysOf first
      let rows ← valuesRows (first :: rest)
      Option.some (headerBlock title ++ tabulate rows headers table_format)

/-- `print_results(**sections)`: iterate the named sections in order; a
dict goes to `print_dict`, a non-empty list whose first element is a dict
goes to `print_table`, anything else to `print_section`. -/
def print_results : List (String × Value) → Option (List String)
  | [] => Option.some []
  | (title, content) :: rest => do
      let chunk ←
        match content with
        | .dict d => Option.some (print_dict d (Option.some title) 20)
        | .list (first :: items) =>
          match first with
          | .dict d0 =>
              print_table (.dict d0 :: items) (Option.some title) "grid"
          | _ =>
              Option.some
                (print_section title (Option.some (.list (first :: items))) 50)
        | other => Option.some (print_section title (Option.some other) 50)
      let restOut ← print_results rest
      Option.some (chunk ++ restOut)

/-- The rich table object `print_rich_table` assembles: a title, the
columns with their styles (`table.add_column(header, style=style)`), and
the stringified rows (`table.add_row(*[str(v) for v in row.values()])`).
Rendering to the console is modelled as producing this structure. -/
structure RichTable where
  title : Option String
  columns : List (String × String)
  rows : List (List String)

/-- `columns.get(header, "white") if columns else "white"`. -/
def styleFor (columns : Option (List (String × String))) (header : String) :
    String :=
  match columns with
  | Option.some cs => (List.lookup header cs).getD "white"
  | Option.none => "white"

/-- `print_rich_table(data, title=None, columns=None)`: builds the table
with one column per key of the first row (styled via `styleFor`) and one
stringified row per input mapping; empty data yields a title-only,
column-less table. -/
def print_rich_table (data : List (List (String × Value)))
    (title : Option String) (columns : Option (List (String × String))) :
    RichTable :=
  match data with
  | [] => { title := title, columns := [], rows := [] }
  | first :: _ =>
      { title := title
        columns := (first.map Prod.fst).map
          (fun header => (header, styleFor columns header))
        rows := data.map (fun row => row.map (fun p => pyStr p.2)) }

/-! ## Shape predicates used to state the dispatcher's routing rule -/

/-- `isinstance(content, dict)`. -/
def isDict : Value → Bool
  | .dict _ => true
  | _ => false

/-- `isinstance(content, list) and content and isinstance(content[0], dict)`. -/
def headDictList : Value → Bool
  | .list (first :: _) => isDict first
  | _ => false

/-- The entries of a value known to be a dict (`[]` otherwise). -/
def entriesOf : Value → List (String × Value)
  | .dict d => d
  | _ => []

/-- The items of a value known to be a list (`[]` otherwise). -/
def itemsOf : Value → List Value
  | .list xs => xs
  | _ => []

/-- The routing rule as the spec states it: a mapping goes to the key-value
printer, else a non-empty list whose first element is a mapping goes to the
plain table printer, else the generic section printer. -/
def dispatchSpec (title : String) (content : Value) : Option (List String) :=
  if isDict content then
    Option.some (print_dict (entriesOf content) (Option.some title) 20)
  else if headDictList content then
    print_table (itemsOf content) (Option.some title) "grid"
  else
    Option.some (print_section title (Option.some content) 50)

/-! ## Helper lemmas -/

/-- Looking up a key absent from the head entry skips that entry. -/
lemma lookup_cons_ne (k k' : String) (v : Value) (l : List (String × Value))
    (h : k' ≠ k) : List.lookup k' ((k, v) :: l) = List.lookup k' l := by
  rw [List.lookup_cons]
  have hb : (k' == k) = false := beq_eq_false_iff_ne.mpr h
  rw [hb]

/-- When a row's keys are distinct, reading the row back through key lookup
in its own key order reproduces exactly the row's values. -/
lemma lookup_self_keys (d : List (String × Value))
    (hnd : (d.map Prod.fst).Nodup) :
    (d.map Prod.fst).map (fun k => (List.lookup k d).getD Value.none) =
      d.map Prod.snd := by
  induction d with
  | nil => rfl
  | cons p rest ih =>
      obtain ⟨k, v⟩ := p
      simp only [List.map_cons, List.nodup_cons] at hnd
      simp only [List.map_cons, List.cons.injEq]
      refine ⟨?_, ?_⟩
      · rw [List.lookup_cons]
        simp
      · rw [List.map_congr_left (g := fun k' => (List.lookup k' rest).getD Value.none)]
        · exact ih hnd.2
        · intro k' hk'
          have hne : k' ≠ k := fun he => hnd.1 (he ▸ hk')
          rw [lookup_cons_ne k k' v rest hne]

/-- `valuesRows` over a list of dict values succeeds and extracts each
row's values. -/
lemma valuesRows_dicts (l : List (List (String × Value))) :
    valuesRows (l.map Value.dict) =
      Option.some (l.map (fun d => d.map Prod.snd)) := by
  induction l with
  | nil => rfl
  | cons d rest ih =>
      simp only [List.map_cons, valuesRows, valuesOf, ih]
      rfl

/-! ## The claims -/

/-- C5: for every title, content and width, `print_section` prints a blank
line, then a separator line of exactly `width` copies of the separator
character `'='`, then the title line, then another such separator line,
before any content. -/
theorem print_section_separators (title : String) (content : Option Value)
    (width : Nat) :
    print_section title content width =
      "" :: sepLine width :: (" " ++ title) :: sepLine width ::
        contentLines content
    ∧ (sepLine width).length = width
    ∧ ∀ c ∈ (sepLine width).data, c = '=' := by
  refine ⟨rfl, ?_, ?_⟩
  · show (List.replicate width '=').length = width
    exact List.length_replicate width '='
  · intro c hc
    exact List.eq_of_mem_replicate hc

/-- C9: passing the empty string or the empty list as content to
`print_section` produces exactly the output of passing no content; more
generally any falsy content value is skipped. -/
theorem print_section_falsy_content (title : String) (width : Nat) :
    print_section title (Option.some (.str "")) width =
      print_section title Option.none width
    ∧ print_section title (Option.some (.list [])) width =
      print_section title Option.none width
    ∧ ∀ v : Value, truthy v = false →
        print_section title (Option.some v) width =
          print_section title Option.none width := by
  refine ⟨rfl, rfl, ?_⟩
  intro v hv
  simp [print_section, contentLines, hv]

/-- C7 (failing input): `print_section("Data", ["Item 1"])` prints the list
element on a line reading `"sss Item 1"`, not the element's own text
`"Item 1"`: the loop body is `print("sss", item)`, a leftover debug prefix. -/
theorem print_section_list_item_has_sss_prefix :
    print_section "Data" (Option.some (.list [.str "Item 1"])) 50 =
      ["", sepLine 50, " Data", sepLine 50, "sss Item 1"]
    ∧ ("sss Item 1" : String) ≠ "Item 1" :=
  ⟨rfl, by decide⟩

/-- C3: `print_dict` output is the header block followed by one line per
entry in insertion order; each entry's line is the label, then filler dots
(never spaces) up to the key width, then a space and the value's text. -/
theorem print_dict_entry_lines (M : List (String × Value))
    (title : Option String) (w : Nat) :
    print_dict M title w = headerBlock title ++ M.map (dictLine w)
    ∧ (M.map (dictLine w)).length = M.length
    ∧ (∀ p ∈ M, dictLine w p =
        p.1 ++ String.mk (List.replicate (w - p.1.length) '.') ++
          (" " ++ pyStr p.2))
    ∧ (∀ p ∈ M, ∃ rest, dictLine w p = p.1 ++ rest)
    ∧ ∀ p ∈ M, ∀ c ∈ (List.replicate (w - p.1.length) '.'), c = '.' := by
  refine ⟨rfl, List.length_map M (dictLine w), ?_, ?_, ?_⟩
  · intro p _
    simp only [dictLine, padDot, String.append_assoc]
  · intro p _
    refine ⟨String.mk (List.replicate (w - p.1.length) '.') ++
      (" " ++ pyStr p.2), ?_⟩
    simp only [dictLine, padDot, String.append_assoc]
  · intro p _ c hc
    exact List.eq_of_mem_replicate hc

/-- C8 (counterexample): `print_dict({"Name": "Alice", "Age": 30})` does
not produce exactly two lines — a leading blank line precedes the two
entry lines, so the output has three lines. -/
theorem print_dict_example_not_two_lines :
    (print_dict [("Name", .str "Alice"), ("Age", .int 30)]
      Option.none 20).length ≠ 2 := by
  decide

/-- C8 (amended): `print_dict({"Name": "Alice", "Age": 30})` with no title
produces a leading blank line followed by exactly two lines, the first
being `"Name"` padded with filler dots then `" Alice"`, the second `"Age"`
padded with filler dots then `" 30"`. -/
theorem print_dict_example_lines :
    print_dict [("Name", .str "Alice"), ("Age", .int 30)] Option.none 20 =
      ["", "Name................ Alice", "Age................. 30"] := by
  decide

/-- C4: on an empty row sequence neither table printer fails or emits row
output: `print_table` prints only the header block, and `print_rich_table`
builds a title-only table with no columns and no rows. -/
theorem empty_rows_tables (t : Option String) (fmt : String)
    (cs : Option (List (String × String))) :
    print_table [] t fmt = Option.some (headerBlock t)
    ∧ print_rich_table [] t cs = { title := t, columns := [], rows := [] } :=
  ⟨rfl, rfl⟩

/-- C10: with no title supplied, `print_dict` and `print_table` each emit
exactly one leading blank line before any other output. -/
theorem no_title_leading_blank_line (M : List (String × Value)) (w : Nat)
    (data : List Value) (fmt : String) :
    print_dict M Option.none w = "" :: M.map (dictLine w)
    ∧ ∀ out, print_table data Option.none fmt = Option.some out →
        ∃ rest, out = "" :: rest := by
  refine ⟨rfl, ?_⟩
  intro out hout
  cases data with
  | nil =>
      refine ⟨[], ?_⟩
      simpa [print_table, headerBlock] using hout.symm
  | cons first rest =>
      cases hk : keysOf first with
      | none => simp [print_table, hk] at hout
      | some headers =>
          cases hr : valuesRows (first :: rest) with
          | none => simp [print_table, hk, hr] at hout
          | some rows =>
              simp [print_table, hk, hr, headerBlock] at hout
              exact ⟨tabulate rows headers fmt, hout.symm⟩

/-- One step of the dispatcher: a section's chunk is chosen by
`dispatchSpec` and prepended to the remaining sections' output. -/
lemma print_results_cons (title : String) (content : Value)
    (rest : List (String × Value)) :
    print_results ((title, content) :: rest) =
      (dispatchSpec title content).bind
        (fun chunk => (print_results rest).map (fun r => chunk ++ r)) := by
  cases content with
  | none =>
      cases hpr : print_results rest <;>
        simp [print_results, dispatchSpec, isDict, headDictList, hpr]
  | str s =>
      cases hpr : print_results rest <;>
        simp [print_results, dispatchSpec, isDict, headDictList, hpr]
  | int n =>
      cases hpr : print_results rest <;>
        simp [print_results, dispatchSpec, isDict, headDictList, hpr]
  | dict d =>
      cases hpr : print_results rest <;>
        simp [print_results, dispatchSpec, isDict, headDictList, entriesOf,
          hpr]
  | list items =>
      cases items with
      | nil =>
          cases hpr : print_results rest <;>
            simp [print_results, dispatchSpec, isDict, headDictList, itemsOf,
              hpr]
      | cons f tl =>
          cases f with
          | dict d0 =>
              cases hpt : print_table (Value.dict d0 :: tl)
                  (Option.some title) "grid" <;>
                cases hpr : print_results rest <;>
                  simp [print_results, dispatchSpec, isDict, headDictList,
                    itemsOf, hpt, hpr]
          | none =>
              cases hpr : print_results rest <;>
                simp [print_results, dispatchSpec, isDict, headDictList,
                  itemsOf, hpr]
          | str s =>
              cases hpr : print_results rest <;>
                simp [print_results, dispatchSpec, isDict, headDictList,
                  itemsOf, hpr]
          | int n =>
              cases hpr : print_results rest <;>
                simp [print_results, dispatchSpec, isDict, headDictList,
                  itemsOf, hpr]
          | list l =>
              cases hpr : print_results rest <;>
                simp [print_results, dispatchSpec, isDict, headDictList,
                  itemsOf, hpr]

/-- C1: the dispatcher processes the named sections in the order supplied
and routes each by shape with the priority stated by the spec: a mapping to
the key-value printer, else a non-empty list whose first element is a
mapping to the plain table printer, else (including an empty list) the
generic section printer. -/
theorem print_results_shape_routing (sections : List (String × Value)) :
    print_results sections =
      sections.foldr
        (fun p acc => (dispatchSpec p.1 p.2).bind
          (fun chunk => acc.map (fun r => chunk ++ r)))
        (Option.some []) := by
  induction sections with
  | nil => rfl
  | cons p rest ih =>
      obtain ⟨title, content⟩ := p
      rw [List.foldr_cons, ← ih]
      exact print_results_cons title content rest

/-- C2: for a non-empty uniform row sequence the plain table printer passes
the tabular renderer exactly the first row's keys (in that row's order) as
the header row, and each body row's values come out in that same key
order. -/
theorem print_table_header_and_row_order
    (d0 : List (String × Value)) (rest : List (List (String × Value)))
    (t : Option String) (fmt : String)
    (huni : ∀ d ∈ rest, d.map Prod.fst = d0.map Prod.fst)
    (hnd : (d0.map Prod.fst).Nodup) :
    print_table ((d0 :: rest).map Value.dict) t fmt =
      Option.some (headerBlock t ++
        tabulate ((d0 :: rest).map (fun d => d.map Prod.snd))
          (d0.map Prod.fst) fmt)
    ∧ ∀ d ∈ d0 :: rest,
        d.map Prod.snd =
          (d0.map Prod.fst).map (fun k => (List.lookup k d).getD Value.none) := by
  constructor
  · have h2 := valuesRows_dicts (d0 :: rest)
    simp only [List.map_cons] at h2 ⊢
    simp [print_table, keysOf, h2]
  · intro d hd
    have hkeys : d.map Prod.fst = d0.map Prod.fst := by
      rcases List.mem_cons.mp hd with h | h
      · rw [h]
      · exact huni d h
    have hnd' : (d.map Prod.fst).Nodup := by rw [hkeys]; exact hnd
    rw [← hkeys]
    exact (lookup_self_keys d hnd').symm

/-- C2 witness: the two-row `Name`/`Age` example, with its uniformity and
key-distinctness hypotheses discharged by computation. -/
theorem print_table_header_and_row_order_witness :
    print_table ([[("Name", Value.str "Alice"), ("Age", Value.int 30)],
        [("Name", Value.str "Bob"), ("Age", Value.int 25)]].map Value.dict)
        (Option.some "Students") "grid" =
      Option.some (headerBlock (Option.some "Students") ++
        tabulate ([[("Name", Value.str "Alice"), ("Age", Value.int 30)],
            [("Name", Value.str "Bob"), ("Age", Value.int 25)]].map
              (fun d => d.map Prod.snd))
          ([("Name", Value.str "Alice"), ("Age", Value.int 30)].map Prod.fst)
          "grid")
    ∧ ∀ d ∈ [[("Name", Value.str "Alice"), ("Age", Value.int 30)],
        [("Name", Value.str "Bob"), ("Age", Value.int 25)]],
        d.map Prod.snd =
          ([("Name", Value.str "Alice"), ("Age", Value.int 30)].map
            Prod.fst).map (fun k => (List.lookup k d).getD Value.none) :=
  print_table_header_and_row_order
    [("Name", Value.str "Alice"), ("Age", Value.int 30)]
    [[("Name", Value.str "Bob"), ("Age", Value.int 25)]]
    (Option.some "Students") "grid" (by decide) (by decide)

/-- C6: for non-empty data the styled table printer builds one column per
key of the first row in that row's key order, takes each column's style
from the style mapping when present there and `"white"` otherwise (also
when no mapping is supplied), and stringifies every row value. -/
theorem print_rich_table_columns_and_rows
    (d0 : List (String × Value)) (rest : List (List (String × Value)))
    (t : Option String) (cs : Option (List (String × String))) :
    (print_rich_table (d0 :: rest) t cs).title = t
    ∧ (print_rich_table (d0 :: rest) t cs).columns.map Prod.fst =
        d0.map Prod.fst
    ∧ (∀ p ∈ (print_rich_table (d0 :: rest) t cs).columns,
        p.2 = styleFor cs p.1
        ∧ (∀ m, cs = Option.some m → p.2 = (List.lookup p.1 m).getD "white")
        ∧ (cs = Option.none → p.2 = "white"))
    ∧ (print_rich_table (d0 :: rest) t cs).rows =
        (d0 :: rest).map (fun row => row.map (fun q => pyStr q.2)) := by
  refine ⟨rfl, ?_, ?_, rfl⟩
  · simp [print_rich_table, List.map_map, Function.comp]
  · intro p hp
    simp only [print_rich_table, List.mem_map] at hp
    obtain ⟨h, hmem, hfp⟩ := hp
    subst hfp
    refine ⟨rfl, ?_, ?_⟩
    · intro m hm
      rw [hm]
      rfl
    · intro hm
      rw [hm]
      rfl
